import Mathlib

/-!
Shallow embedding of the markdown scanning and rewriting core of the
Obsidian_to_Anki plugin (`src/file.ts` and `src/bulk-delete.ts`), together
with theorems settling the specification claims.

Buffers are lists of characters (`Buf`).  JavaScript `String.slice` with
non-negative clamped arguments is exactly `List.take`/`List.drop`, and the
regex-driven pieces of the scanner are embedded as folds over explicit
candidate-match lists (one candidate per regex match of the fixed document
text, in match order), which is faithful because every `matchAll` in the
source runs over the immutable `this.file` while only the bookkeeping state
(ignore spans, note lists) changes between matches.
-/

/-- A buffer of text, the shallow embedding of a JavaScript string. -/
abbrev Buf := List Char

/-- Turn a string literal into a buffer. -/
def buf (s : String) : Buf := s.data

/-- One text edit, `{ start, end, text }` in `src/file.ts` (the `end` field
is named `endPos` here because `end` is a Lean keyword). -/
structure Edit where
  start : Nat
  endPos : Nat
  text : Buf
deriving DecidableEq, Repr

/-- One splice step of `apply_edits` (`src/file.ts` line 33):
`text.slice(0, edit.start) + edit.text + text.slice(edit.end)`. -/
def applyOne (t : Buf) (e : Edit) : Buf :=
  t.take e.start ++ e.text ++ t.drop e.endPos

/-- The comparator `(a, b) => b.start - a.start` of `apply_edits` as an
ordering relation: `a` may be placed before `b` exactly when
`a.start ≥ b.start`. -/
def editGE (a b : Edit) : Prop := b.start ≤ a.start

instance : DecidableRel editGE :=
  fun a b => inferInstanceAs (Decidable (b.start ≤ a.start))

instance : IsTotal Edit editGE := ⟨fun a b => Nat.le_total b.start a.start⟩

instance : IsTrans Edit editGE := ⟨fun _ _ _ h h' => Nat.le_trans h' h⟩

/-- Strictly descending start offsets. -/
def editGT (a b : Edit) : Prop := b.start < a.start

instance : DecidableRel editGT :=
  fun a b => inferInstanceAs (Decidable (b.start < a.start))

instance : IsAntisymm Edit editGT :=
  ⟨fun _ _ h h' => absurd (Nat.lt_trans h h') (Nat.lt_irrefl _)⟩

/-- The sort `edits.sort((a, b) => b.start - a.start)` of `src/file.ts`
line 31.  JavaScript `Array.sort` is a stable sort, and
`List.insertionSort` is stable for the same total preorder, so the two
agree on every input. -/
def sortEdits (edits : List Edit) : List Edit := List.insertionSort editGE edits

/-- Embedding of `apply_edits` (`src/file.ts` lines 29-36): sort the edits
by descending start offset, then splice each into the buffer in turn. -/
def apply_edits (text : Buf) (edits : List Edit) : Buf :=
  (sortEdits edits).foldl applyOne text

/-- The spans `[start, end)` of two edits are non-overlapping: one ends at
or before the other starts. -/
def spansSeparated (a b : Edit) : Prop := a.endPos ≤ b.start ∨ b.endPos ≤ a.start

instance : DecidableRel spansSeparated :=
  fun a b => inferInstanceAs (Decidable (_ ∨ _))

/-- Two edits overlap. -/
def overlaps (a b : Edit) : Prop := ¬ spansSeparated a b

instance : DecidableRel overlaps := fun a b => inferInstanceAs (Decidable ¬ _)

/-- Non-overlapping spans and pairwise distinct start offsets. -/
def sepStrict (a b : Edit) : Prop := a.start ≠ b.start ∧ spansSeparated a b

instance : DecidableRel sepStrict := fun a b => inferInstanceAs (Decidable (_ ∧ _))

/-- A half-open span of offsets into the original buffer. -/
abbrev Span := Nat × Nat

/-- Embedding of `contained_in` (`src/file.ts` lines 50-55): whether `span`
lies inside some element of `spans` with one character of leeway on each
side.  The JavaScript test `span[0] >= element[0] - 1` is rewritten without
subtraction as `element[0] <= span[0] + 1`, the same inequality over
integers. -/
def contained_in (span : Span) (spans : List Span) : Bool :=
  spans.any fun element => element.1 ≤ span.1 + 1 && span.2 ≤ element.2 + 1

/-- Modelled from the spec: `CLOZE_ERROR` is one of the two sentinel
identifier values exported by `src/note.ts`, which is not among the
sources; only the fact that it is a fixed numeric constant matters, so an
arbitrary concrete value stands for it. -/
def CLOZE_ERROR : Int := 42

/-- Modelled from the spec: the second sentinel identifier value
(`NOTE_TYPE_ERROR` in `src/note.ts`), distinct from `CLOZE_ERROR`. -/
def NOTE_TYPE_ERROR : Int := 69

/-- The slice of the per-scan settings object (`FileData`) consulted by the
embedded functions. -/
structure FileData where
  EXISTING_IDS : List Int
  saveIDToFrontmatter : Bool
  comment : Bool
deriving DecidableEq, Repr

/-- The mutable per-document state of `AllFile` during `scanFile` and
`writeIDs`.  Note payloads (`AnkiConnectNote` records) are opaque and
represented by natural-number tags; `notes_to_edit` entries pair a payload
with its identifier, as `AnkiConnectNoteAndID` does. -/
structure ScanState where
  file : Buf
  notes_to_add : List Nat := []
  id_indexes : List Nat := []
  inline_notes_to_add : List Nat := []
  inline_id_indexes : List Nat := []
  regex_notes_to_add : List Nat := []
  regex_id_indexes : List Nat := []
  notes_to_edit : List (Nat × Int) := []
  notes_to_delete : List Int := []
  ignore_spans : List Span := []
  existingIDSpans : List Span := []
  notesToWriteInline : List (Nat × Int) := []
  useFrontmatterID : Bool := false
  frontmatterID : Option Int := none
  note_ids : List (Option Int) := []
deriving DecidableEq, Repr

/-- JavaScript truthiness of a nullable number: null and 0 are falsy. -/
def truthy : Option Int → Bool
  | none => false
  | some n => n != 0

/-- One regex match of a custom note pattern, as consumed by
`AllFile.search` (`src/file.ts` lines 477-544): its span in the document,
the identifier-variant flag of the pattern that produced it, the parse
outcome of `RegexNote.parse` (an identifier, a sentinel, or null), the
opaque note payload, and the span of the identifier marker that the source
re-detects inside the matched text. -/
structure RegexCand where
  span : Span
  searchId : Bool
  identifier : Option Int
  payload : Nat
  idSpan : Option Span
deriving DecidableEq, Repr

/-- One iteration of the match loop in `AllFile.search` (`src/file.ts`
lines 486-541): matches contained (±1) in `ignore_spans` are skipped by
`findignore`; an accepted match pushes its span immediately, then the parse
outcome is routed, with ClozeError outcomes popping the span again and
contributing nothing; a known identifier is pushed onto `notes_to_edit`,
and the identifier-marker span is recorded when the identifier is truthy. -/
def searchStep (d : FileData) (st : ScanState) (m : RegexCand) : ScanState :=
  if contained_in m.span st.ignore_spans then st
  else
    let st1 := { st with ignore_spans := st.ignore_spans ++ [m.span] }
    if m.searchId then
      match m.identifier with
      | some n =>
        if n ∈ d.EXISTING_IDS then
          let st2 := { st1 with notes_to_edit := st1.notes_to_edit ++ [(m.payload, n)] }
          if n ≠ 0 then
            match m.idSpan with
            | some sp => { st2 with existingIDSpans := st2.existingIDSpans ++ [sp] }
            | none => st2
          else st2
        else if n = CLOZE_ERROR then
          { st1 with ignore_spans := st1.ignore_spans.dropLast }
        else
          if n ≠ 0 then
            match m.idSpan with
            | some sp => { st1 with existingIDSpans := st1.existingIDSpans ++ [sp] }
            | none => st1
          else st1
      | none => st1
    else
      if m.identifier = some CLOZE_ERROR then
        { st1 with ignore_spans := st1.ignore_spans.dropLast }
      else
        { st1 with
            regex_notes_to_add := st1.regex_notes_to_add ++ [m.payload],
            regex_id_indexes := st1.regex_id_indexes ++ [m.span.2] }

/-- All custom-regex passes over one document: a fold over the candidate
matches of every pattern variant, in the order the source iterates them. -/
def searchAll (d : FileData) (st : ScanState) (cands : List RegexCand) : ScanState :=
  cands.foldl (searchStep d) st

/-- The scanner's overlap discipline for an ignore list `l` whose first `k`
spans are pre-existing: every later span was accepted only when it was not
contained (±1) in the spans before it. -/
def ignoreInvariant (k : Nat) (l : List Span) : Prop :=
  ∀ i, k ≤ i → i < l.length → contained_in (l.getD i (0, 0)) (l.take i) = false

/-- One match of the built-in block-note pattern (`NOTE_REGEXP`), or of the
inline pattern for `scanInlineNotes`, as consumed by `AllFile.scanNotes`
(`src/file.ts` lines 364-423) and `AllFile.scanInlineNotes` (lines 425-475):
the opaque parsed note payload, the identifier outcome of parsing (null for
a new note, otherwise the parsed number, possibly a sentinel), the insertion
position for a new identifier (the end of the first capture group), and the
span of the identifier marker that the source re-detects in the matched
text. -/
structure NoteCand where
  payload : Nat
  identifier : Option Int
  position : Nat
  idSpan : Option Span
deriving DecidableEq, Repr

/-- One iteration of the loop in `AllFile.scanNotes`: a note without an
identifier is queued for adding together with its insertion position; a
note with an identifier records the re-detected marker span and is queued
for editing exactly when the identifier is known, while sentinel and
unknown identifiers are only reported. -/
def scanNotesStep (d : FileData) (st : ScanState) (c : NoteCand) : ScanState :=
  match c.identifier with
  | none =>
    { st with
        notes_to_add := st.notes_to_add ++ [c.payload],
        id_indexes := st.id_indexes ++ [c.position] }
  | some n =>
    let st1 := match c.idSpan with
      | some sp => { st with existingIDSpans := st.existingIDSpans ++ [sp] }
      | none => st
    if n ∈ d.EXISTING_IDS then
      { st1 with notes_to_edit := st1.notes_to_edit ++ [(c.payload, n)] }
    else st1

/-- The loop of `AllFile.scanNotes` over all block-note matches. -/
def scanNotes (d : FileData) (st : ScanState) (cands : List NoteCand) : ScanState :=
  cands.foldl (scanNotesStep d) st

/-- One iteration of the loop in `AllFile.scanInlineNotes`; identical
routing to `scanNotesStep` except that new notes go to the inline lists. -/
def scanInlineNotesStep (d : FileData) (st : ScanState) (c : NoteCand) : ScanState :=
  match c.identifier with
  | none =>
    { st with
        inline_notes_to_add := st.inline_notes_to_add ++ [c.payload],
        inline_id_indexes := st.inline_id_indexes ++ [c.position] }
  | some n =>
    let st1 := match c.idSpan with
      | some sp => { st with existingIDSpans := st.existingIDSpans ++ [sp] }
      | none => st
    if n ∈ d.EXISTING_IDS then
      { st1 with notes_to_edit := st1.notes_to_edit ++ [(c.payload, n)] }
    else st1

/-- The loop of `AllFile.scanInlineNotes` over all inline-note matches. -/
def scanInlineNotes (d : FileData) (st : ScanState) (cands : List NoteCand) : ScanState :=
  cands.foldl (scanInlineNotesStep d) st

/-- Payloads of the candidates parsed without an identifier (new notes). -/
def newNotePayloads (cands : List NoteCand) : List Nat :=
  cands.filterMap fun c =>
    match c.identifier with
    | none => some c.payload
    | some _ => none

/-- Insertion positions of the candidates parsed without an identifier. -/
def newNotePositions (cands : List NoteCand) : List Nat :=
  cands.filterMap fun c =>
    match c.identifier with
    | none => some c.position
    | some _ => none

/-- Edit entries produced from the candidates with a known identifier. -/
def knownNoteEdits (d : FileData) (cands : List NoteCand) : List (Nat × Int) :=
  cands.filterMap fun c =>
    match c.identifier with
    | some n => if n ∈ d.EXISTING_IDS then some (c.payload, n) else none
    | none => none

/-- Identifier-marker spans recorded for candidates with an identifier. -/
def noteIdSpans (cands : List NoteCand) : List Span :=
  cands.filterMap fun c =>
    match c.identifier, c.idSpan with
    | some _, some sp => some sp
    | _, _ => none

/-- The match-scanning portion of `AllFile.scanFile` (`src/file.ts` lines
575-612): block notes, then inline notes, then every custom-regex pass. -/
def scanCore (d : FileData) (st : ScanState) (blocks inlines : List NoteCand)
    (passes : List RegexCand) : ScanState :=
  searchAll d (scanInlineNotes d (scanNotes d st blocks) inlines) passes

/-- Embedding of `AllFile.postProcessFrontmatterID` (`src/file.ts` lines
614-693).  `pop`/`shift` on JavaScript arrays are `dropLast`+`getLast?` and
`tail`+`head?`; `if (this.frontmatterID)` is the truthiness test of a
nullable number, so a front-matter identifier of 0 is treated as absent. -/
def postProcessFrontmatterID (d : FileData) (st : ScanState) : ScanState :=
  let totalNotes := st.notes_to_add.length + st.inline_notes_to_add.length +
    st.regex_notes_to_add.length + st.notes_to_edit.length
  if d.saveIDToFrontmatter ∧ totalNotes = 1 then
    let st := { st with useFrontmatterID := true }
    match st.frontmatterID with
    | some fid =>
      if fid ≠ 0 then
        if st.notes_to_add.length = 1 then
          if fid ∈ d.EXISTING_IDS then
            match st.notes_to_add.getLast? with
            | some note =>
              { st with
                  notes_to_add := st.notes_to_add.dropLast,
                  id_indexes := st.id_indexes.dropLast,
                  notes_to_edit := st.notes_to_edit ++ [(note, fid)] }
            | none => st
          else st
        else if st.inline_notes_to_add.length = 1 ∨
            st.regex_notes_to_add.length = 1 then
          if st.inline_notes_to_add.length ≠ 0 then
            if fid ∈ d.EXISTING_IDS then
              match st.inline_notes_to_add.getLast? with
              | some note =>
                { st with
                    inline_notes_to_add := st.inline_notes_to_add.dropLast,
                    inline_id_indexes := st.inline_id_indexes.dropLast,
                    notes_to_edit := st.notes_to_edit ++ [(note, fid)] }
              | none => st
            else st
          else
            if fid ∈ d.EXISTING_IDS then
              match st.regex_notes_to_add.getLast? with
              | some note =>
                { st with
                    regex_notes_to_add := st.regex_notes_to_add.dropLast,
                    regex_id_indexes := st.regex_id_indexes.dropLast,
                    notes_to_edit := st.notes_to_edit ++ [(note, fid)] }
              | none => st
            else st
        else if st.notes_to_edit.length = 1 then
          match st.notes_to_edit with
          | (pl, pid) :: rest =>
            if pid ≠ fid then
              if fid ∈ d.EXISTING_IDS then
                { st with notes_to_edit := (pl, fid) :: rest }
              else st
            else st
          | [] => st
        else st
      else st
    | none => st
  else
    let st := { st with useFrontmatterID := false }
    match st.frontmatterID with
    | some fid =>
      if fid ≠ 0 then
        if fid ∈ d.EXISTING_IDS then
          if 0 < st.notes_to_add.length then
            let note? := st.notes_to_add.head?
            let position? := st.id_indexes.head?
            let st1 := { st with
              notes_to_add := st.notes_to_add.tail,
              id_indexes := st.id_indexes.tail }
            match note?, position? with
            | some note, some position =>
              { st1 with
                  notes_to_edit := st1.notes_to_edit ++ [(note, fid)],
                  notesToWriteInline := st1.notesToWriteInline ++ [(position, fid)] }
            | _, _ => st1
          else st
        else st
      else st
    | none => st

/-- JavaScript whitespace, for `trim` and for `\s` in the regexes. -/
def isWs (c : Char) : Bool := c.isWhitespace

/-- JavaScript `String.trim` over a char-list buffer. -/
def jsTrim (s : Buf) : Buf :=
  ((s.dropWhile isWs).reverse.dropWhile isWs).reverse

/-- Whether `pat` occurs as a contiguous substring. -/
def containsSub (pat : Buf) : Buf → Bool
  | [] => pat.isEmpty
  | c :: rest => pat.isPrefixOf (c :: rest) || containsSub pat rest

/-- Index of the first occurrence of `pat`, if any. -/
def indexOfSub (pat : Buf) : Buf → Option Nat
  | [] => if pat.isEmpty then some 0 else none
  | c :: rest =>
    if pat.isPrefixOf (c :: rest) then some 0
    else (indexOfSub pat rest).map (· + 1)

/-- The final line of a buffer: the text after the last newline. -/
def lastLine (s : Buf) : Buf :=
  (s.reverse.takeWhile (fun c => c != '\n')).reverse

/-- The front-matter regex of the source (`^---\n([\s\S]*?)\n---`, used in
`src/file.ts` lines 719 and 740 and `src/bulk-delete.ts` line 14), matched
lazily: when the buffer starts with `---\n` the capture runs up to the
first later occurrence of `\n---`; returns the captured content and the
length of the whole match. -/
def matchFrontmatter (s : Buf) : Option (Buf × Nat) :=
  if (buf "---\n").isPrefixOf s then
    match indexOfSub (buf "\n---") (s.drop 4) with
    | some j => some ((s.drop 4).take j, 4 + j + 4)
    | none => none
  else none

/-- The multiline test for a line beginning with `nid:` (the regexes
`/^nid:.*$/m` and `/^nid:.*\n?/m` of `writeIDs`): `nid:` at the start of
the buffer or directly after a newline. -/
def hasNidLine (fm : Buf) : Bool :=
  (buf "nid:").isPrefixOf fm || containsSub (buf "\nnid:") fm

/-- The test `/nid:[^\n]*$/` against the trimmed front matter
(`src/file.ts` line 747): the last line contains `nid:`. -/
def nidIsLastProp (t : Buf) : Bool := containsSub (buf "nid:") (lastLine t)

/-- The core `nid:[^\n]*\s*$` of the removal regex: `nid:`, the rest of
that line, then nothing but whitespace to the end of the buffer. -/
def nidTailCore (l : Buf) : Bool :=
  (buf "nid:").isPrefixOf l &&
    ((l.drop 4).dropWhile (fun c => c != '\n')).all isWs

/-- Whether a buffer suffix is matched entirely by
`(\n\s*)?nid:[^\n]*\s*$`: at a newline the optional group must be taken
(the engine cannot match `nid:` on the newline itself), elsewhere the core
must start immediately. -/
def nidTailMatch (l : Buf) : Bool :=
  match l with
  | '\n' :: r => nidTailCore (r.dropWhile isWs)
  | _ => nidTailCore l

/-- Leftmost start position of a `(\n\s*)?nid:[^\n]*\s*$` match. -/
def nidTailIndex : Buf → Option Nat
  | [] => none
  | c :: rest =>
    if nidTailMatch (c :: rest) then some 0
    else (nidTailIndex rest).map (· + 1)

/-- The replace of `/(\n\s*)?nid:[^\n]*\s*$/` by the empty string
(`src/file.ts` line 750): the match always extends to the end of the
buffer, so the result is the prefix before the leftmost match, or the
buffer unchanged when there is none. -/
def removeLastNid (fm : Buf) : Buf :=
  match nidTailIndex fm with
  | some i => fm.take i
  | none => fm

/-- The replace of the first multiline `^nid:[^\n]*` match by `nid:`
(`src/file.ts` line 754): the value after the key on that line is dropped,
everything else kept; the flag tracks whether the position follows a
newline or the buffer start. -/
def clearFirstNidGo : Bool → Buf → Buf
  | _, [] => []
  | atLineStart, c :: rest =>
    if atLineStart && (buf "nid:").isPrefixOf (c :: rest) then
      buf "nid:" ++ ((c :: rest).drop 4).dropWhile (fun ch => ch != '\n')
    else c :: clearFirstNidGo (c == '\n') rest

/-- Entry point of the value-clearing replace. -/
def clearFirstNid (fm : Buf) : Buf := clearFirstNidGo true fm

/-- The replace of the first multiline `^nid:.*$` match by a fresh
`nid: <id>` text (`src/file.ts` line 727). -/
def replaceNidLineGo (new : Buf) : Bool → Buf → Buf
  | _, [] => []
  | atLineStart, c :: rest =>
    if atLineStart && (buf "nid:").isPrefixOf (c :: rest) then
      new ++ ((c :: rest).drop 4).dropWhile (fun ch => ch != '\n')
    else c :: replaceNidLineGo new (c == '\n') rest

/-- Entry point of the nid-line replacement. -/
def replaceNidLine (fm new : Buf) : Buf := replaceNidLineGo new true fm

/-- The newline alternatives `\r\n|\r|\n` at the head of a buffer, in the
backtracking preference order of the regex engine. -/
def nlOptions (s : Buf) : List (Buf × Buf) :=
  match s with
  | '\r' :: '\n' :: r => [(['\r', '\n'], r), (['\r'], '\n' :: r)]
  | '\r' :: r => [(['\r'], r)]
  | '\n' :: r => [(['\n'], r)]
  | _ => []

/-- The pattern `(?:<!--)?ID: \d+` at the head of a buffer: the matched text and the
rest after it (the optional comment opener is deterministic because a
buffer starting with `<!--` cannot also start with `ID: `). -/
def matchIdCore (s : Buf) : Option (Buf × Buf) :=
  let cmt := if (buf "<!--").isPrefixOf s then buf "<!--" else []
  let s1 := s.drop cmt.length
  if (buf "ID: ").isPrefixOf s1 then
    let digits := (s1.drop 4).takeWhile Char.isDigit
    if digits.isEmpty then none
    else some (cmt ++ buf "ID: " ++ digits, (s1.drop 4).drop digits.length)
  else none

/-- The pattern `double_regexp` (`src/file.ts` line 14) matched at the head of the
buffer: a first, uncaptured newline, then the captured second newline,
optional comment opener, `ID: ` and digits; the newline alternatives are
tried in engine order with backtracking. -/
def matchDoubleId (s : Buf) : Option (Buf × Buf) :=
  (nlOptions s).findSome? fun nl1 =>
    (nlOptions nl1.2).findSome? fun nl2 =>
      (matchIdCore nl2.2).map fun core => (nl2.1 ++ core.1, core.2)

/-- Fuel-indexed global-replace scan for `fix_newline_ids`; each step
consumes at least one character, so the buffer length is enough fuel. -/
def fixNewlineGo : Nat → Buf → Buf
  | 0, s => s
  | _ + 1, [] => []
  | fuel + 1, c :: rest =>
    match matchDoubleId (c :: rest) with
    | some (capture, after) => capture ++ fixNewlineGo fuel after
    | none => c :: fixNewlineGo fuel rest

/-- Embedding of `fix_newline_ids` (`src/file.ts` lines 695-697): the
global replace of `double_regexp` by its capture group, dropping the first
of two consecutive newlines before an identifier-marker line. -/
def fix_newline_ids (s : Buf) : Buf := fixNewlineGo s.length s

/-- Embedding of `id_to_str` (`src/file.ts` lines 16-27). -/
def id_to_str (identifier : Int) (isInline comment : Bool) : Buf :=
  let result := buf "ID: " ++ (toString identifier).data
  let result := if comment then buf "<!--" ++ result ++ buf "-->" else result
  if isInline then result ++ buf " " else result ++ buf "\n"

/-- The `getTargetID` helper of `writeIDs` (`src/file.ts` lines 703-708). -/
def getTargetID (st : ScanState) : Option Int :=
  match st.notes_to_edit with
  | e :: _ => some e.2
  | [] =>
    match st.note_ids with
    | i :: _ => i
    | [] => none

/-- Edits contributed by one parallel-array identifier write of `writeIDs`
(`src/file.ts` lines 769-792): the position-list entry at `index` is paired
with `note_ids[offset + index]` and kept when that identifier is truthy
(out-of-range and null entries are falsy and skipped). -/
def indexWrites (noteIds : List (Option Int)) (offset : Nat)
    (positions : List Nat) (mk : Nat → Int → Edit) : List Edit :=
  positions.enum.filterMap fun ip =>
    match noteIds.getD (offset + ip.1) none with
    | some i => if i ≠ 0 then some (mk ip.2 i) else none
    | none => none

/-- Embedding of `AllFile.writeIDs` (`src/file.ts` lines 699-803).  In
front-matter mode the existing inline identifier spans are deleted and the
front matter is rewritten (or created) around the target identifier; in the
fallback mode a truthy left-over front-matter identifier has its `nid` line
removed (when last property) or its value cleared, the scheduled inline
restorations and the three parallel-array identifier writes are emitted,
the edits are applied, and the newline normalisation runs. -/
def writeIDs (d : FileData) (st : ScanState) : ScanState :=
  if st.useFrontmatterID then
    let edits1 := st.existingIDSpans.map fun sp => Edit.mk sp.1 sp.2 []
    let edits2 :=
      match getTargetID st with
      | some t =>
        if t ≠ 0 then
          match matchFrontmatter st.file with
          | some fml =>
            let newFm :=
              if hasNidLine fml.1 then
                replaceNidLine fml.1 (buf "nid: " ++ (toString t).data)
              else fml.1 ++ buf "\nnid: " ++ (toString t).data
            [Edit.mk 0 fml.2 (buf "---\n" ++ jsTrim newFm ++ buf "\n---")]
          | none =>
            [Edit.mk 0 0 (buf "---\nnid: " ++ (toString t).data ++ buf "\n---\n")]
        else []
      | none => []
    { st with file := apply_edits st.file (edits1 ++ edits2) }
  else
    let editsFm :=
      match st.frontmatterID with
      | some f =>
        if f ≠ 0 then
          match matchFrontmatter st.file with
          | some fml =>
            if hasNidLine fml.1 then
              let newFm :=
                if nidIsLastProp (jsTrim fml.1) then removeLastNid fml.1
                else clearFirstNid fml.1
              [Edit.mk 0 fml.2 (buf "---\n" ++ newFm ++ buf "\n---")]
            else []
          | none => []
        else []
      | none => []
    let editsRestore := st.notesToWriteInline.map fun pi =>
      Edit.mk pi.1 pi.1 (id_to_str pi.2 false d.comment)
    let editsBlock := indexWrites st.note_ids 0 st.id_indexes
      fun pos i => Edit.mk pos pos (id_to_str i false d.comment)
    let editsInline := indexWrites st.note_ids st.notes_to_add.length
      st.inline_id_indexes fun pos i => Edit.mk pos pos (id_to_str i true d.comment)
    let editsRegex := indexWrites st.note_ids
      (st.notes_to_add.length + st.inline_notes_to_add.length)
      st.regex_id_indexes
      fun pos i => Edit.mk pos pos ('\n' :: jsTrim (id_to_str i false d.comment))
    let newFile := apply_edits st.file
      (editsFm ++ editsRestore ++ editsBlock ++ editsInline ++ editsRegex)
    { st with file := fix_newline_ids newFile }

/-- The pipeline of `AllFile.scanFile` (`src/file.ts` lines 575-612) over
abstract candidate-match lists: `setupScan` initialisation (empty note
lists, the pre-computed ignore spans, the front-matter identifier captured
only in front-matter mode), the block, inline and custom-regex scans, the
deletion scan, and `postProcessFrontmatterID`.  The `note_ids` list stays
empty: the external file manager fills it between scanning and writing,
one entry per note to add. -/
def scanFile (d : FileData) (file : Buf) (fmNid : Option Int)
    (initIgnore : List Span) (blocks inlines : List NoteCand)
    (passes : List RegexCand) (dels : List Int) : ScanState :=
  let st0 : ScanState := {
    file := file,
    ignore_spans := initIgnore,
    frontmatterID := if d.saveIDToFrontmatter then fmNid else none }
  let st1 := scanCore d st0 blocks inlines passes
  let st2 := { st1 with notes_to_delete := st1.notes_to_delete ++ dels }
  postProcessFrontmatterID d st2

/-- Numeric value of a digit string (the `parseInt` of a `\d+` capture,
which is never NaN). -/
def digitsToNat (ds : Buf) : Nat :=
  ds.foldl (fun acc c => acc * 10 + (c.toNat - '0'.toNat)) 0

/-- One match of `ID_REGEXP_STR` at the head of a buffer: the captured
number and the rest after the match.  The pattern is
`\n?(?:<!--)?(?:ID: (\d+).*)` (quoted in the `src/file.ts` line 397
comment; its definition lives in `src/note.ts`, which is not among the
sources); both optional prefixes are deterministic because a buffer
position holding `\n` or `<` cannot also start `ID: `. -/
def matchIdMarker (s : Buf) : Option (Nat × Buf) :=
  let p1 := if s.head? = some '\n' then s.tail else s
  let p2 := if (buf "<!--").isPrefixOf p1 then p1.drop 4 else p1
  if (buf "ID: ").isPrefixOf p2 then
    let digits := (p2.drop 4).takeWhile Char.isDigit
    if digits.isEmpty then none
    else
      some (digitsToNat digits,
        ((p2.drop 4).drop digits.length).dropWhile (fun c => c != '\n'))
  else none

/-- Fuel-indexed scan collecting every `ID_REGEXP_STR` match in order, as
`content.matchAll(regex)` does in `checkAndBulkDelete`; every match
consumes at least one character. -/
def scanIdMarkersGo : Nat → Buf → List Nat
  | 0, _ => []
  | _ + 1, [] => []
  | fuel + 1, c :: rest =>
    match matchIdMarker (c :: rest) with
    | some na => na.1 :: scanIdMarkersGo fuel na.2
    | none => scanIdMarkersGo fuel rest

/-- All inline identifier-marker matches of a buffer. -/
def scanIdMarkers (s : Buf) : List Nat := scanIdMarkersGo s.length s

/-- The `/^nid:\s*(\d+)/m` capture of `checkAndBulkDelete`
(`src/bulk-delete.ts` line 18) inside the front-matter content: the first
line starting `nid:` followed by whitespace and at least one digit. -/
def fmNidCaptureGo : Bool → Buf → Option Nat
  | _, [] => none
  | atLineStart, c :: rest =>
    if atLineStart && (buf "nid:").isPrefixOf (c :: rest) then
      let digits := (((c :: rest).drop 4).dropWhile isWs).takeWhile Char.isDigit
      if digits.isEmpty then fmNidCaptureGo (c == '\n') rest
      else some (digitsToNat digits)
    else fmNidCaptureGo (c == '\n') rest

/-- Entry point of the front-matter nid capture. -/
def fmNidCapture (fm : Buf) : Option Nat := fmNidCaptureGo true fm

/-- The pure core of `checkAndBulkDelete` (`src/bulk-delete.ts` lines
6-47): collect the integers of every inline identifier-marker match of the
content, append the front-matter nid capture when present; `none` encodes
the early `No IDs found` return (no deletion request, no file
modification), `some ids` the list submitted to the remote `deleteNotes`
action upon confirmation. -/
def bulkDeleteIds (content : Buf) : Option (List Nat) :=
  let ids := scanIdMarkers content
  let ids :=
    match matchFrontmatter content with
    | some fml =>
      match fmNidCapture fml.1 with
      | some v => ids ++ [v]
      | none => ids
    | none => ids
  if ids.isEmpty then none else some ids

/-- JavaScript `split(',')` over a char-list buffer. -/
def splitOnComma : Buf → List Buf
  | [] => [[]]
  | c :: rest =>
    if c = ',' then [] :: splitOnComma rest
    else
      match splitOnComma rest with
      | t :: ts => (c :: t) :: ts
      | [] => [[c]]

/-- The replace `tag.replace('#', '')` of the source: only the first occurrence of the
character is removed. -/
def removeFirstHash : Buf → Buf
  | [] => []
  | c :: rest => if c = '#' then rest else c :: removeFirstHash rest

/-- The split of a required-tags configuration
(`tags_str.split(',').map(t => t.trim()).filter(t => t.length > 0)`,
`src/file.ts` line 549). -/
def splitRequiredTags (s : Buf) : List Buf :=
  ((splitOnComma s).map jsTrim).filter fun t => !t.isEmpty

/-- Embedding of `AllFile.hasRequiredTag` (`src/file.ts` lines 546-573).
The file-cache front-matter tags are either a list or a comma-separated
string (an empty string is falsy in the source and skipped, which gives the
same outcome as matching it here, since the required tags contain no empty
piece); inline tag occurrences carry a leading `#` stripped by a
first-occurrence replace.  An empty or whitespace-only configuration, or
one whose split yields no piece, returns true before any document tag is
consulted. -/
def hasRequiredTag (tags_str : Buf) (fmTags : Option (List Buf ⊕ Buf))
    (inlineTags : Option (List Buf)) : Bool :=
  if tags_str.isEmpty || (jsTrim tags_str).isEmpty then true
  else
    let requiredTags := splitRequiredTags tags_str
    if requiredTags.length = 0 then true
    else
      let fmHit :=
        match fmTags with
        | some (Sum.inl arr) => arr.any fun tag => requiredTags.contains tag
        | some (Sum.inr s) =>
          ((splitOnComma s).map jsTrim).any fun tag => requiredTags.contains tag
        | none => false
      if fmHit then true
      else
        match inlineTags with
        | some l => l.any fun tc => requiredTags.contains (removeFirstHash tc)
        | none => false

/-- The loop-ordering comparator of `scanFile` (`src/file.ts` lines
583-593) as a relation: a note type may precede another unless it has no
trimmed required-tags entry while the other has one; ties keep declaration
order (JavaScript sort and `List.insertionSort` are both stable). -/
def tagSortLE (tags : Buf → Buf) (a b : Buf) : Prop :=
  ¬((jsTrim (tags a)).isEmpty = true ∧ (jsTrim (tags b)).isEmpty = false)

instance (tags : Buf → Buf) : DecidableRel (tagSortLE tags) :=
  fun _ _ => inferInstanceAs (Decidable ¬ _)

/-- The note-type selection of `scanFile` (`src/file.ts` lines 580-608):
under required-tags gating the types with configured tags are stably sorted
first; a type is searched when its custom regexp is nonempty and, under
gating, `hasRequiredTag` accepts its required-tags entry. -/
def scannedNoteTypes (noteTypes : List Buf) (regexps : Buf → Buf)
    (tags : Buf → Buf) (gating : Bool) (fmTags : Option (List Buf ⊕ Buf))
    (inlineTags : Option (List Buf)) : List Buf :=
  let ordered :=
    if gating then List.insertionSort (tagSortLE tags) noteTypes else noteTypes
  ordered.filter fun nt =>
    !(regexps nt).isEmpty &&
      (!gating || hasRequiredTag (tags nt) fmTags inlineTags)

theorem sortEdits_perm (l : List Edit) : (sortEdits l).Perm l :=
  List.perm_insertionSort editGE l

theorem sortEdits_sorted (l : List Edit) : List.Sorted editGE (sortEdits l) :=
  List.sorted_insertionSort editGE l

theorem sortEdits_sorted_strict {l : List Edit}
    (h : l.Pairwise fun a b => a.start ≠ b.start) :
    List.Sorted editGT (sortEdits l) := by
  have hne : (sortEdits l).Pairwise fun a b => a.start ≠ b.start :=
    (List.Perm.pairwise_iff (fun h' => h'.symm) (sortEdits_perm l)).mpr h
  exact ((sortEdits_sorted l).and hne).imp fun hab =>
    lt_of_le_of_ne hab.1 (Ne.symm hab.2)

theorem sortEdits_eq_of_perm {l₁ l₂ : List Edit} (hp : l₁.Perm l₂)
    (h : l₁.Pairwise fun a b => a.start ≠ b.start) :
    sortEdits l₁ = sortEdits l₂ := by
  have h₂ : l₂.Pairwise fun a b => a.start ≠ b.start :=
    (List.Perm.pairwise_iff (fun h' => h'.symm) hp).mp h
  exact List.eq_of_perm_of_sorted
    (((sortEdits_perm l₁).trans hp).trans (sortEdits_perm l₂).symm)
    (sortEdits_sorted_strict h) (sortEdits_sorted_strict h₂)

/-- C1 (amended): for every text and every list of pairwise non-overlapping
edits with pairwise distinct start offsets (start ≤ end ≤ text length), the
buffer returned by `apply_edits` depends only on the set of edits and not on
the order of the list, and coincides with applying the edits one by one from
largest start offset to smallest. -/
theorem apply_edits_order_independent (t : Buf) (l₁ : List Edit)
    (hsep : l₁.Pairwise sepStrict)
    (hvalid : ∀ e ∈ l₁, e.start ≤ e.endPos ∧ e.endPos ≤ t.length) :
    (∀ l₂, l₁.Perm l₂ → apply_edits t l₁ = apply_edits t l₂) ∧
    (∀ w, l₁.Perm w → w.Pairwise editGT →
      apply_edits t l₁ = w.foldl applyOne t) := by
  have hne : l₁.Pairwise fun a b => a.start ≠ b.start := hsep.imp fun h => h.1
  refine ⟨fun l₂ hp => ?_, fun w hp hw => ?_⟩
  · unfold apply_edits
    rw [sortEdits_eq_of_perm hp hne]
  · unfold apply_edits
    rw [List.eq_of_perm_of_sorted ((sortEdits_perm l₁).trans hp)
      (sortEdits_sorted_strict hne) hw]

/-- Witness for C1's amended theorem at a concrete input. -/
theorem apply_edits_order_independent_witness :
    apply_edits (buf "xy") [⟨0, 1, buf "A"⟩, ⟨1, 2, buf "B"⟩]
      = apply_edits (buf "xy") [⟨1, 2, buf "B"⟩, ⟨0, 1, buf "A"⟩] :=
  (apply_edits_order_independent (buf "xy") [⟨0, 1, buf "A"⟩, ⟨1, 2, buf "B"⟩]
    (by decide) (by decide)).1 _ (by decide)

/-- C1 fails as literally stated: two zero-length insertions at the same
offset have non-overlapping (empty) spans with start ≤ end ≤ text length,
yet the two orders of presenting them to `apply_edits` produce different
buffers, so the result does not depend only on the set of edits. -/
theorem apply_edits_order_dependent_counterexample :
    List.Pairwise spansSeparated [(⟨0, 0, buf "a"⟩ : Edit), ⟨0, 0, buf "b"⟩] ∧
    (∀ e ∈ [(⟨0, 0, buf "a"⟩ : Edit), ⟨0, 0, buf "b"⟩],
      e.start ≤ e.endPos ∧ e.endPos ≤ (buf "").length) ∧
    List.Perm [(⟨0, 0, buf "a"⟩ : Edit), ⟨0, 0, buf "b"⟩]
      [⟨0, 0, buf "b"⟩, ⟨0, 0, buf "a"⟩] ∧
    apply_edits (buf "") [⟨0, 0, buf "a"⟩, ⟨0, 0, buf "b"⟩]
      ≠ apply_edits (buf "") [⟨0, 0, buf "b"⟩, ⟨0, 0, buf "a"⟩] := by
  decide

/-- C2 (amended): `apply_edits` performs no overlap validation at all; given
a list of two overlapping edits it still returns an ordinary spliced buffer,
applying the edits in descending-start order.  The non-overlap invariant is
entirely the caller's responsibility. -/
theorem apply_edits_no_overlap_check (t : Buf) (e₁ e₂ : Edit)
    (hord : e₂.start ≤ e₁.start) (hov : overlaps e₁ e₂) :
    apply_edits t [e₁, e₂] = applyOne (applyOne t e₁) e₂ := by
  unfold apply_edits sortEdits
  simp only [List.insertionSort, List.orderedInsert]
  rw [if_pos (show editGE e₁ e₂ from hord)]
  rfl

/-- Witness for C2's amended theorem at a concrete input. -/
theorem apply_edits_no_overlap_check_witness :
    overlaps ⟨2, 6, buf "Y"⟩ ⟨0, 4, buf "X"⟩ ∧
    apply_edits (buf "abcdef") [⟨2, 6, buf "Y"⟩, ⟨0, 4, buf "X"⟩]
      = applyOne (applyOne (buf "abcdef") ⟨2, 6, buf "Y"⟩) ⟨0, 4, buf "X"⟩ :=
  ⟨by decide,
    apply_edits_no_overlap_check (buf "abcdef") _ _ (by decide) (by decide)⟩

/-- C2 fails as stated: `apply_edits` contains no overlap check and no error
path, so on an edit list with two overlapping spans it silently returns an
output buffer (here the corrupted text "X") instead of failing. -/
theorem apply_edits_overlap_counterexample :
    overlaps ⟨0, 4, buf "X"⟩ ⟨2, 6, buf "Y"⟩ ∧
    apply_edits (buf "abcdef") [⟨0, 4, buf "X"⟩, ⟨2, 6, buf "Y"⟩] = buf "X" := by
  decide

theorem searchStep_ignore (d : FileData) (st : ScanState) (m : RegexCand) :
    (searchStep d st m).ignore_spans = st.ignore_spans ∨
    ((searchStep d st m).ignore_spans = st.ignore_spans ++ [m.span] ∧
      contained_in m.span st.ignore_spans = false) := by
  by_cases hc : contained_in m.span st.ignore_spans = true
  · left; simp [searchStep, hc]
  · have hc' := eq_false_of_ne_true hc
    cases hs : m.searchId with
    | false =>
      by_cases hcz : m.identifier = some CLOZE_ERROR
      · left; simp [searchStep, hc', hs, hcz, List.dropLast_concat]
      · right; exact ⟨by simp [searchStep, hc', hs, hcz], hc'⟩
    | true =>
      cases hid : m.identifier with
      | none => right; exact ⟨by simp [searchStep, hc', hs, hid], hc'⟩
      | some n =>
        by_cases hin : n ∈ d.EXISTING_IDS
        · right
          refine ⟨?_, hc'⟩
          by_cases hz : n = 0
          · subst hz
            simp [searchStep, hc', hs, hid, hin]
          · cases hsp : m.idSpan <;>
              simp [searchStep, hc', hs, hid, hin, hz, hsp]
        · by_cases hcz : n = CLOZE_ERROR
          · subst hcz
            left
            simp [searchStep, hc', hs, hid, hin, List.dropLast_concat]
          · right
            refine ⟨?_, hc'⟩
            by_cases hz : n = 0
            · subst hz
              simp [searchStep, hc', hs, hid, hin, hcz]
            · cases hsp : m.idSpan <;>
                simp [searchStep, hc', hs, hid, hin, hcz, hz, hsp]

theorem ignoreInvariant_step (d : FileData) {k : Nat} {st : ScanState}
    (m : RegexCand) (h : ignoreInvariant k st.ignore_spans) :
    ignoreInvariant k (searchStep d st m).ignore_spans := by
  rcases searchStep_ignore d st m with heq | ⟨heq, hnc⟩
  · rw [heq]; exact h
  · rw [heq]
    intro i hk hi
    rw [List.length_append, List.length_singleton] at hi
    rcases Nat.lt_or_ge i st.ignore_spans.length with hlt | hge
    · rw [List.getD_eq_getElem?_getD, List.getElem?_append_left hlt,
        List.take_append_eq_append_take, Nat.sub_eq_zero_of_le (Nat.le_of_lt hlt)]
      simpa [← List.getD_eq_getElem?_getD] using h i hk hlt
    · have hieq : i = st.ignore_spans.length := by omega
      subst hieq
      rw [List.getD_eq_getElem?_getD, List.getElem?_append_right (Nat.le_refl _),
        Nat.sub_self]
      simpa [List.take_left] using hnc

theorem searchStep_ignore_take (d : FileData) {init : List Span}
    {st : ScanState} (m : RegexCand)
    (h : st.ignore_spans.take init.length = init) :
    (searchStep d st m).ignore_spans.take init.length = init := by
  have hk : init.length ≤ st.ignore_spans.length := by
    have hlen := congrArg List.length h
    simp only [List.length_take] at hlen
    omega
  rcases searchStep_ignore d st m with heq | ⟨heq, _⟩
  · rw [heq, h]
  · rw [heq, List.take_append_eq_append_take, Nat.sub_eq_zero_of_le hk]
    simp [h]

/-- C3: after all custom-regex passes of `AllFile.search` complete, the
pre-existing ignore spans are still a prefix of the final ignore list, and
every span the scanner accepted satisfies the overlap rule: at the moment
it was appended it was not contained, with one character of leeway on each
side, in any span before it (pre-existing or previously accepted), because
accepted spans are pushed immediately and ClozeError retractions only ever
pop the span just pushed. -/
theorem search_ignore_spans_invariant (d : FileData) (st0 : ScanState)
    (cands : List RegexCand) :
    ((searchAll d st0 cands).ignore_spans.take st0.ignore_spans.length
      = st0.ignore_spans) ∧
    ∀ i, st0.ignore_spans.length ≤ i →
      i < (searchAll d st0 cands).ignore_spans.length →
      contained_in ((searchAll d st0 cands).ignore_spans.getD i (0, 0))
        ((searchAll d st0 cands).ignore_spans.take i) = false := by
  have main : ∀ (cs : List RegexCand) (st : ScanState),
      st.ignore_spans.take st0.ignore_spans.length = st0.ignore_spans →
      ignoreInvariant st0.ignore_spans.length st.ignore_spans →
      ((searchAll d st cs).ignore_spans.take st0.ignore_spans.length
        = st0.ignore_spans) ∧
      ignoreInvariant st0.ignore_spans.length (searchAll d st cs).ignore_spans := by
    intro cs
    induction cs with
    | nil => intro st h1 h2; exact ⟨h1, h2⟩
    | cons m rest ih =>
      intro st h1 h2
      exact ih (searchStep d st m) (searchStep_ignore_take d m h1)
        (ignoreInvariant_step d m h2)
  exact main cands st0 (List.take_length _) (fun i hk hi => absurd hi (by omega))

/-- Witness for C3's theorem at a concrete input: one pattern pass over a
document with one pre-existing ignore span and two candidate matches, the
second of which is accepted outside the pre-existing span. -/
theorem search_ignore_spans_invariant_witness :
    ((searchAll ⟨[], false, false⟩
        { file := buf "abcdef", ignore_spans := [(0, 3)] }
        [⟨(1, 2), false, none, 5, none⟩, ⟨(4, 6), false, none, 6, none⟩]).ignore_spans.take 1
      = [(0, 3)]) ∧
    contained_in ((searchAll ⟨[], false, false⟩
        { file := buf "abcdef", ignore_spans := [(0, 3)] }
        [⟨(1, 2), false, none, 5, none⟩, ⟨(4, 6), false, none, 6, none⟩]).ignore_spans.getD 1 (0, 0))
      ((searchAll ⟨[], false, false⟩
        { file := buf "abcdef", ignore_spans := [(0, 3)] }
        [⟨(1, 2), false, none, 5, none⟩, ⟨(4, 6), false, none, 6, none⟩]).ignore_spans.take 1) = false :=
  ⟨(search_ignore_spans_invariant ⟨[], false, false⟩
      { file := buf "abcdef", ignore_spans := [(0, 3)] }
      [⟨(1, 2), false, none, 5, none⟩, ⟨(4, 6), false, none, 6, none⟩]).1,
    (search_ignore_spans_invariant ⟨[], false, false⟩
      { file := buf "abcdef", ignore_spans := [(0, 3)] }
      [⟨(1, 2), false, none, 5, none⟩, ⟨(4, 6), false, none, 6, none⟩]).2
      1 (by decide) (by decide)⟩

/-- C7 (amended): a custom-regex match whose parse outcome is the ClozeError
sentinel leaves the scanner state exactly as it was — the span pushed for it
is popped from the ignore set again and nothing is appended to any to-add or
to-edit list — provided the sentinel value is not itself among the known
remote identifiers. -/
theorem searchStep_cloze_error_retracts (d : FileData) (st : ScanState)
    (m : RegexCand) (hid : m.identifier = some CLOZE_ERROR)
    (hni : CLOZE_ERROR ∉ d.EXISTING_IDS) :
    searchStep d st m = st := by
  by_cases hc : contained_in m.span st.ignore_spans = true
  · simp [searchStep, hc]
  · have hc' := eq_false_of_ne_true hc
    cases hs : m.searchId with
    | false => simp [searchStep, hc', hs, hid, List.dropLast_concat]
    | true => simp [searchStep, hc', hs, hid, hni, List.dropLast_concat]

/-- Witness for C7's amended theorem at a concrete input. -/
theorem searchStep_cloze_error_retracts_witness :
    searchStep ⟨[], false, false⟩ { file := buf "x" }
        ⟨(0, 1), false, some CLOZE_ERROR, 7, none⟩
      = { file := buf "x" } :=
  searchStep_cloze_error_retracts ⟨[], false, false⟩ { file := buf "x" }
    ⟨(0, 1), false, some CLOZE_ERROR, 7, none⟩ (by decide) (by decide)

/-- C7 fails as literally stated when the ClozeError sentinel value happens
to be in the known-identifier set: `AllFile.search` tests membership in
`EXISTING_IDS` before comparing against the sentinel, so the span stays in
the ignore set and the match is pushed onto `notes_to_edit`. -/
theorem searchStep_cloze_error_counterexample :
    (searchStep ⟨[CLOZE_ERROR], false, false⟩ { file := buf "abcde" }
        ⟨(0, 5), true, some CLOZE_ERROR, 7, none⟩).ignore_spans = [(0, 5)] ∧
    (searchStep ⟨[CLOZE_ERROR], false, false⟩ { file := buf "abcde" }
        ⟨(0, 5), true, some CLOZE_ERROR, 7, none⟩).notes_to_edit
      = [(7, CLOZE_ERROR)] := by
  decide

theorem scanNotes_nil (d : FileData) (st : ScanState) : scanNotes d st [] = st := rfl

theorem scanNotes_cons (d : FileData) (st : ScanState) (c : NoteCand)
    (cands : List NoteCand) :
    scanNotes d st (c :: cands) = scanNotes d (scanNotesStep d st c) cands := rfl

theorem scanInlineNotes_nil (d : FileData) (st : ScanState) :
    scanInlineNotes d st [] = st := rfl

theorem scanInlineNotes_cons (d : FileData) (st : ScanState) (c : NoteCand)
    (cands : List NoteCand) :
    scanInlineNotes d st (c :: cands)
      = scanInlineNotes d (scanInlineNotesStep d st c) cands := rfl

theorem scanNotes_spec (d : FileData) (cands : List NoteCand) :
    ∀ st : ScanState,
    scanNotes d st cands = { st with
      notes_to_add := st.notes_to_add ++ newNotePayloads cands,
      id_indexes := st.id_indexes ++ newNotePositions cands,
      notes_to_edit := st.notes_to_edit ++ knownNoteEdits d cands,
      existingIDSpans := st.existingIDSpans ++ noteIdSpans cands } := by
  induction cands with
  | nil =>
    intro st
    simp [scanNotes_nil, newNotePayloads, newNotePositions, knownNoteEdits, noteIdSpans]
  | cons c rest ih =>
    intro st
    rw [scanNotes_cons, ih]
    rcases hid : c.identifier with _ | n
    · simp [scanNotesStep, hid, newNotePayloads, newNotePositions, knownNoteEdits,
        noteIdSpans, List.append_assoc]
    · by_cases hin : n ∈ d.EXISTING_IDS <;>
        rcases hsp : c.idSpan with _ | sp <;>
          simp [scanNotesStep, hid, hin, hsp, newNotePayloads, newNotePositions,
            knownNoteEdits, noteIdSpans, List.append_assoc]

theorem scanInlineNotes_spec (d : FileData) (cands : List NoteCand) :
    ∀ st : ScanState,
    scanInlineNotes d st cands = { st with
      inline_notes_to_add := st.inline_notes_to_add ++ newNotePayloads cands,
      inline_id_indexes := st.inline_id_indexes ++ newNotePositions cands,
      notes_to_edit := st.notes_to_edit ++ knownNoteEdits d cands,
      existingIDSpans := st.existingIDSpans ++ noteIdSpans cands } := by
  induction cands with
  | nil =>
    intro st
    simp [scanInlineNotes_nil, newNotePayloads, newNotePositions, knownNoteEdits,
      noteIdSpans]
  | cons c rest ih =>
    intro st
    rw [scanInlineNotes_cons, ih]
    rcases hid : c.identifier with _ | n
    · simp [scanInlineNotesStep, hid, newNotePayloads, newNotePositions,
        knownNoteEdits, noteIdSpans, List.append_assoc]
    · by_cases hin : n ∈ d.EXISTING_IDS <;>
        rcases hsp : c.idSpan with _ | sp <;>
          simp [scanInlineNotesStep, hid, hin, hsp, newNotePayloads, newNotePositions,
            knownNoteEdits, noteIdSpans, List.append_assoc]

theorem searchStep_cases (d : FileData) (st : ScanState) (m : RegexCand) :
    (∃ ign esp, searchStep d st m
        = { st with ignore_spans := ign, existingIDSpans := esp }) ∨
    (∃ ign esp n, m.searchId = true ∧ m.identifier = some n ∧
      n ∈ d.EXISTING_IDS ∧
      searchStep d st m = { st with
        ignore_spans := ign,
        existingIDSpans := esp,
        notes_to_edit := st.notes_to_edit ++ [(m.payload, n)] }) ∨
    (m.searchId = false ∧ m.identifier ≠ some CLOZE_ERROR ∧
      searchStep d st m = { st with
        ignore_spans := st.ignore_spans ++ [m.span],
        regex_notes_to_add := st.regex_notes_to_add ++ [m.payload],
        regex_id_indexes := st.regex_id_indexes ++ [m.span.2] }) := by
  by_cases hc : contained_in m.span st.ignore_spans = true
  · exact Or.inl ⟨st.ignore_spans, st.existingIDSpans, by simp [searchStep, hc]⟩
  · have hc' := eq_false_of_ne_true hc
    cases hs : m.searchId with
    | false =>
      by_cases hcz : m.identifier = some CLOZE_ERROR
      · exact Or.inl ⟨st.ignore_spans, st.existingIDSpans,
          by simp [searchStep, hc', hs, hcz, List.dropLast_concat]⟩
      · exact Or.inr (Or.inr ⟨rfl, hcz, by simp [searchStep, hc', hs, hcz]⟩)
    | true =>
      cases hid : m.identifier with
      | none =>
        exact Or.inl ⟨st.ignore_spans ++ [m.span], st.existingIDSpans,
          by simp [searchStep, hc', hs, hid]⟩
      | some n =>
        by_cases hin : n ∈ d.EXISTING_IDS
        · refine Or.inr (Or.inl ⟨st.ignore_spans ++ [m.span], ?_, n, rfl, rfl, hin, ?_⟩)
          · exact if n = 0 then st.existingIDSpans
              else match m.idSpan with
                | some sp => st.existingIDSpans ++ [sp]
                | none => st.existingIDSpans
          · by_cases hz : n = 0
            · subst hz
              simp [searchStep, hc', hs, hid, hin]
            · cases hsp : m.idSpan <;>
                simp [searchStep, hc', hs, hid, hin, hz, hsp]
        · by_cases hcz : n = CLOZE_ERROR
          · subst hcz
            exact Or.inl ⟨st.ignore_spans, st.existingIDSpans,
              by simp [searchStep, hc', hs, hid, hin, List.dropLast_concat]⟩
          · refine Or.inl ⟨st.ignore_spans ++ [m.span], ?_, ?_⟩
            · exact if n = 0 then st.existingIDSpans
                else match m.idSpan with
                  | some sp => st.existingIDSpans ++ [sp]
                  | none => st.existingIDSpans
            · by_cases hz : n = 0
              · subst hz
                simp [searchStep, hc', hs, hid, hin, hcz]
              · cases hsp : m.idSpan <;>
                  simp [searchStep, hc', hs, hid, hin, hcz, hz, hsp]

theorem searchStep_preserves (d : FileData) (st : ScanState) (m : RegexCand) :
    (searchStep d st m).file = st.file ∧
    (searchStep d st m).notes_to_add = st.notes_to_add ∧
    (searchStep d st m).id_indexes = st.id_indexes ∧
    (searchStep d st m).inline_notes_to_add = st.inline_notes_to_add ∧
    (searchStep d st m).inline_id_indexes = st.inline_id_indexes ∧
    (searchStep d st m).notes_to_delete = st.notes_to_delete ∧
    (searchStep d st m).notesToWriteInline = st.notesToWriteInline ∧
    (searchStep d st m).useFrontmatterID = st.useFrontmatterID ∧
    (searchStep d st m).frontmatterID = st.frontmatterID ∧
    (searchStep d st m).note_ids = st.note_ids := by
  rcases searchStep_cases d st m with ⟨ign, esp, h⟩ | ⟨ign, esp, n, _, _, _, h⟩ |
    ⟨_, _, h⟩ <;> rw [h] <;>
    exact ⟨rfl, rfl, rfl, rfl, rfl, rfl, rfl, rfl, rfl, rfl⟩

theorem searchStep_regex_adds (d : FileData) (st : ScanState) (m : RegexCand) :
    ∀ p ∈ (searchStep d st m).regex_notes_to_add,
      p ∈ st.regex_notes_to_add ∨
      (m.searchId = false ∧ m.identifier ≠ some CLOZE_ERROR ∧ p = m.payload) := by
  rcases searchStep_cases d st m with ⟨ign, esp, h⟩ | ⟨ign, esp, n, _, _, _, h⟩ |
    ⟨hs, hcz, h⟩ <;> rw [h]
  · exact fun p hp => Or.inl hp
  · exact fun p hp => Or.inl hp
  · intro p hp
    rcases List.mem_append.mp hp with hin | hone
    · exact Or.inl hin
    · exact Or.inr ⟨hs, hcz, List.mem_singleton.mp hone⟩

theorem searchStep_edits (d : FileData) (st : ScanState) (m : RegexCand) :
    ∀ e ∈ (searchStep d st m).notes_to_edit,
      e ∈ st.notes_to_edit ∨
      (m.searchId = true ∧ m.identifier = some e.2 ∧ e.2 ∈ d.EXISTING_IDS ∧
        e.1 = m.payload) := by
  rcases searchStep_cases d st m with ⟨ign, esp, h⟩ | ⟨ign, esp, n, hs, hid, hin, h⟩ |
    ⟨_, _, h⟩ <;> rw [h]
  · exact fun e he => Or.inl he
  · intro e he
    rcases List.mem_append.mp he with hmem | hone
    · exact Or.inl hmem
    · obtain rfl := List.mem_singleton.mp hone
      exact Or.inr ⟨hs, hid, hin, rfl⟩
  · exact fun e he => Or.inl he

theorem searchAll_cons (d : FileData) (st : ScanState) (m : RegexCand)
    (cands : List RegexCand) :
    searchAll d st (m :: cands) = searchAll d (searchStep d st m) cands := rfl

theorem searchAll_preserves (d : FileData) (cands : List RegexCand) :
    ∀ st : ScanState,
    (searchAll d st cands).file = st.file ∧
    (searchAll d st cands).notes_to_add = st.notes_to_add ∧
    (searchAll d st cands).id_indexes = st.id_indexes ∧
    (searchAll d st cands).inline_notes_to_add = st.inline_notes_to_add ∧
    (searchAll d st cands).inline_id_indexes = st.inline_id_indexes ∧
    (searchAll d st cands).notes_to_delete = st.notes_to_delete ∧
    (searchAll d st cands).notesToWriteInline = st.notesToWriteInline ∧
    (searchAll d st cands).useFrontmatterID = st.useFrontmatterID ∧
    (searchAll d st cands).frontmatterID = st.frontmatterID ∧
    (searchAll d st cands).note_ids = st.note_ids := by
  induction cands with
  | nil => intro st; exact ⟨rfl, rfl, rfl, rfl, rfl, rfl, rfl, rfl, rfl, rfl⟩
  | cons m rest ih =>
    intro st
    rw [searchAll_cons]
    obtain ⟨a1, a2, a3, a4, a5, a6, a7, a8, a9, a10⟩ := ih (searchStep d st m)
    obtain ⟨b1, b2, b3, b4, b5, b6, b7, b8, b9, b10⟩ := searchStep_preserves d st m
    exact ⟨a1.trans b1, a2.trans b2, a3.trans b3, a4.trans b4, a5.trans b5,
      a6.trans b6, a7.trans b7, a8.trans b8, a9.trans b9, a10.trans b10⟩

theorem searchAll_regex_adds (d : FileData) (cands : List RegexCand) :
    ∀ st : ScanState, ∀ p ∈ (searchAll d st cands).regex_notes_to_add,
      p ∈ st.regex_notes_to_add ∨
      ∃ m ∈ cands, m.searchId = false ∧ m.identifier ≠ some CLOZE_ERROR ∧
        p = m.payload := by
  induction cands with
  | nil => intro st p hp; exact Or.inl hp
  | cons m rest ih =>
    intro st p hp
    rw [searchAll_cons] at hp
    rcases ih (searchStep d st m) p hp with hin | ⟨m', hm', hrest⟩
    · rcases searchStep_regex_adds d st m p hin with h | h
      · exact Or.inl h
      · exact Or.inr ⟨m, List.mem_cons_self m rest, h⟩
    · exact Or.inr ⟨m', List.mem_cons_of_mem m hm', hrest⟩

theorem searchAll_edits (d : FileData) (cands : List RegexCand) :
    ∀ st : ScanState, ∀ e ∈ (searchAll d st cands).notes_to_edit,
      e ∈ st.notes_to_edit ∨
      ∃ m ∈ cands, m.searchId = true ∧ m.identifier = some e.2 ∧
        e.2 ∈ d.EXISTING_IDS ∧ e.1 = m.payload := by
  induction cands with
  | nil => intro st e he; exact Or.inl he
  | cons m rest ih =>
    intro st e he
    rw [searchAll_cons] at he
    rcases ih (searchStep d st m) e he with hin | ⟨m', hm', hrest⟩
    · rcases searchStep_edits d st m e hin with h | h
      · exact Or.inl h
      · exact Or.inr ⟨m, List.mem_cons_self m rest, h⟩
    · exact Or.inr ⟨m', List.mem_cons_of_mem m hm', hrest⟩

theorem mem_newNotePayloads {cands : List NoteCand} {p : Nat}
    (h : p ∈ newNotePayloads cands) :
    ∃ c ∈ cands, c.identifier = none ∧ c.payload = p := by
  rcases List.mem_filterMap.mp h with ⟨c, hc, hf⟩
  rcases hid : c.identifier with _ | k
  · rw [hid] at hf
    exact ⟨c, hc, hid, Option.some.inj hf⟩
  · rw [hid] at hf
    cases hf

theorem mem_knownNoteEdits {d : FileData} {cands : List NoteCand} {e : Nat × Int}
    (h : e ∈ knownNoteEdits d cands) :
    ∃ c ∈ cands, c.identifier = some e.2 ∧ e.2 ∈ d.EXISTING_IDS ∧
      e.1 = c.payload := by
  rcases List.mem_filterMap.mp h with ⟨c, hc, hf⟩
  rcases hid : c.identifier with _ | k
  · rw [hid] at hf
    cases hf
  · rw [hid] at hf
    dsimp only at hf
    by_cases hin : k ∈ d.EXISTING_IDS
    · rw [if_pos hin] at hf
      obtain rfl := Option.some.inj hf
      exact ⟨c, hc, hid, hin, rfl⟩
    · rw [if_neg hin] at hf
      cases hf

/-- C4: a scanned note (block, inline, or custom-regex) whose parsed
identifier is a number absent from the remote store's known set and distinct
from the two sentinel error values is reported and left untouched by the
scan: its payload ends up in none of the three to-add lists and no
`notes_to_edit` entry carries it, so the resulting plan holds zero adds and
zero edits for that note.  The hypotheses name the note by its payload tag
(a payload carried by any candidate of the document always parses to the
same identifier), and record the modelled fact that `RegexNote.parse`
without the identifier-suffix variant never returns a plain number
(modelled from the spec: identifier extraction happens only in the
identifier-carrying pattern variants; `src/note.ts` is not among the
sources). -/
theorem unknown_identifier_untouched (d : FileData) (st0 : ScanState)
    (blocks inlines : List NoteCand) (passes : List RegexCand) (p : Nat) (n : Int)
    (hstart : st0.notes_to_add = [] ∧ st0.inline_notes_to_add = [] ∧
      st0.regex_notes_to_add = [] ∧ st0.notes_to_edit = [])
    (hunknown : n ∉ d.EXISTING_IDS)
    (hsent : n ≠ CLOZE_ERROR ∧ n ≠ NOTE_TYPE_ERROR)
    (hunique_b : ∀ c ∈ blocks, c.payload = p → c.identifier = some n)
    (hunique_i : ∀ c ∈ inlines, c.payload = p → c.identifier = some n)
    (hunique_r : ∀ m ∈ passes, m.payload = p → m.identifier = some n)
    (hfalse : ∀ m ∈ passes, m.searchId = false →
      m.identifier = none ∨ m.identifier = some CLOZE_ERROR) :
    p ∉ (scanCore d st0 blocks inlines passes).notes_to_add ∧
    p ∉ (scanCore d st0 blocks inlines passes).inline_notes_to_add ∧
    p ∉ (scanCore d st0 blocks inlines passes).regex_notes_to_add ∧
    ∀ e ∈ (scanCore d st0 blocks inlines passes).notes_to_edit, e.1 ≠ p := by
  obtain ⟨h0a, h0i, h0r, h0e⟩ := hstart
  have hpre := searchAll_preserves d passes
    (scanInlineNotes d (scanNotes d st0 blocks) inlines)
  have hins := scanInlineNotes_spec d inlines (scanNotes d st0 blocks)
  have hblk := scanNotes_spec d blocks st0
  refine ⟨?_, ?_, ?_, ?_⟩
  · intro hp
    rw [show (scanCore d st0 blocks inlines passes).notes_to_add
        = st0.notes_to_add ++ newNotePayloads blocks by
      unfold scanCore
      rw [hpre.2.1, hins, hblk]] at hp
    rw [h0a, List.nil_append] at hp
    obtain ⟨c, hc, hcnone, hcp⟩ := mem_newNotePayloads hp
    rw [hunique_b c hc hcp] at hcnone
    cases hcnone
  · intro hp
    rw [show (scanCore d st0 blocks inlines passes).inline_notes_to_add
        = st0.inline_notes_to_add ++ newNotePayloads inlines by
      unfold scanCore
      rw [hpre.2.2.2.1, hins, hblk]] at hp
    rw [h0i, List.nil_append] at hp
    obtain ⟨c, hc, hcnone, hcp⟩ := mem_newNotePayloads hp
    rw [hunique_i c hc hcp] at hcnone
    cases hcnone
  · intro hp
    have hr := searchAll_regex_adds d passes
      (scanInlineNotes d (scanNotes d st0 blocks) inlines) p hp
    rcases hr with hbase | ⟨m, hm, hms, hmcz, hmp⟩
    · rw [hins, hblk] at hbase
      simp only [h0r] at hbase
      exact List.not_mem_nil p hbase
    · have := hunique_r m hm hmp.symm
      rcases hfalse m hm hms with hnone | hcz
      · rw [this] at hnone
        cases hnone
      · rw [this] at hcz
        exact hsent.1 (Option.some.inj hcz)
  · intro e he hep
    have hr := searchAll_edits d passes
      (scanInlineNotes d (scanNotes d st0 blocks) inlines) e he
    rcases hr with hbase | ⟨m, hm, hms, hmid, hmin, hmp⟩
    · rw [hins, hblk] at hbase
      simp only [h0e, List.nil_append] at hbase
      rcases List.mem_append.mp hbase with hbe | hie
      · obtain ⟨c, hc, hcid, hcin, hce⟩ := mem_knownNoteEdits hbe
        rw [hep] at hce
        rw [hunique_b c hc hce.symm] at hcid
        obtain rfl := Option.some.inj hcid
        exact hunknown hcin
      · obtain ⟨c, hc, hcid, hcin, hce⟩ := mem_knownNoteEdits hie
        rw [hep] at hce
        rw [hunique_i c hc hce.symm] at hcid
        obtain rfl := Option.some.inj hcid
        exact hunknown hcin
    · rw [hep] at hmp
      rw [hunique_r m hm hmp.symm] at hmid
      obtain rfl := Option.some.inj hmid
      exact hunknown hmin

/-- Witness for C4's theorem at a concrete input: one block note parsed to
the unknown identifier 99 contributes neither adds nor edits. -/
theorem unknown_identifier_untouched_witness :
    7 ∉ (scanCore ⟨[12], false, false⟩ { file := buf "x" }
      [⟨7, some 99, 3, none⟩] [] []).notes_to_add ∧
    7 ∉ (scanCore ⟨[12], false, false⟩ { file := buf "x" }
      [⟨7, some 99, 3, none⟩] [] []).inline_notes_to_add ∧
    7 ∉ (scanCore ⟨[12], false, false⟩ { file := buf "x" }
      [⟨7, some 99, 3, none⟩] [] []).regex_notes_to_add ∧
    ∀ e ∈ (scanCore ⟨[12], false, false⟩ { file := buf "x" }
      [⟨7, some 99, 3, none⟩] [] []).notes_to_edit, e.1 ≠ 7 :=
  unknown_identifier_untouched ⟨[12], false, false⟩ { file := buf "x" }
    [⟨7, some 99, 3, none⟩] [] [] 7 99
    (by decide) (by decide) (by decide) (by decide) (by decide) (by decide)
    (by decide)

/-- C5 (amended): when front-matter-identifier mode is on, the document
holds exactly one note in total and it sits in `notes_to_add`, and the
front-matter identifier is nonzero and known to the remote store,
`postProcessFrontmatterID` moves the note into `notes_to_edit` under the
front-matter identifier and drops its scheduled insertion position from
`id_indexes`. -/
theorem frontmatter_promotes_single_note (d : FileData) (st : ScanState)
    (nt pos : Nat) (fid : Int)
    (hsave : d.saveIDToFrontmatter = true)
    (hadd : st.notes_to_add = [nt])
    (hidx : st.id_indexes = [pos])
    (hinl : st.inline_notes_to_add = [])
    (hreg : st.regex_notes_to_add = [])
    (hedit : st.notes_to_edit = [])
    (hfm : st.frontmatterID = some fid)
    (hnz : fid ≠ 0)
    (hknown : fid ∈ d.EXISTING_IDS) :
    (postProcessFrontmatterID d st).useFrontmatterID = true ∧
    (postProcessFrontmatterID d st).notes_to_add = [] ∧
    (postProcessFrontmatterID d st).id_indexes = [] ∧
    (postProcessFrontmatterID d st).notes_to_edit = [(nt, fid)] := by
  simp [postProcessFrontmatterID, hsave, hadd, hidx, hinl, hreg, hedit, hfm,
    hnz, hknown]

/-- Witness for C5's amended theorem at a concrete input. -/
theorem frontmatter_promotes_single_note_witness :
    (postProcessFrontmatterID ⟨[12], true, false⟩
      { file := buf "x", notes_to_add := [7], id_indexes := [3],
        frontmatterID := some 12 }).useFrontmatterID = true ∧
    (postProcessFrontmatterID ⟨[12], true, false⟩
      { file := buf "x", notes_to_add := [7], id_indexes := [3],
        frontmatterID := some 12 }).notes_to_add = [] ∧
    (postProcessFrontmatterID ⟨[12], true, false⟩
      { file := buf "x", notes_to_add := [7], id_indexes := [3],
        frontmatterID := some 12 }).id_indexes = [] ∧
    (postProcessFrontmatterID ⟨[12], true, false⟩
      { file := buf "x", notes_to_add := [7], id_indexes := [3],
        frontmatterID := some 12 }).notes_to_edit = [(7, 12)] :=
  frontmatter_promotes_single_note ⟨[12], true, false⟩
    { file := buf "x", notes_to_add := [7], id_indexes := [3],
      frontmatterID := some 12 } 7 3 12
    rfl rfl rfl rfl rfl rfl rfl (by decide) (by decide)

/-- C5 fails as literally stated at a front-matter identifier value of 0
that is in the known-identifier set: `if (this.frontmatterID)` is a
truthiness test, so the promotion is skipped and the single note stays in
`notes_to_add`. -/
theorem frontmatter_zero_id_counterexample :
    (0 : Int) ∈ (FileData.mk [0] true false).EXISTING_IDS ∧
    (postProcessFrontmatterID ⟨[0], true, false⟩
      { file := buf "x", notes_to_add := [7], id_indexes := [3],
        frontmatterID := some 0 }).notes_to_add = [7] ∧
    (postProcessFrontmatterID ⟨[0], true, false⟩
      { file := buf "x", notes_to_add := [7], id_indexes := [3],
        frontmatterID := some 0 }).id_indexes = [3] ∧
    (postProcessFrontmatterID ⟨[0], true, false⟩
      { file := buf "x", notes_to_add := [7], id_indexes := [3],
        frontmatterID := some 0 }).notes_to_edit = [] := by
  decide

theorem postProcess_fallback_flag (d : FileData) (st : ScanState)
    (hguard : ¬(d.saveIDToFrontmatter = true ∧
      st.notes_to_add.length + st.inline_notes_to_add.length +
        st.regex_notes_to_add.length + st.notes_to_edit.length = 1)) :
    (postProcessFrontmatterID d st).useFrontmatterID = false := by
  simp only [postProcessFrontmatterID]
  rw [if_neg hguard]
  rcases hfm : st.frontmatterID with _ | fid
  · rfl
  · by_cases hz : fid = 0
    · simp [hz]
    · by_cases hin : fid ∈ d.EXISTING_IDS
      · by_cases hlen : 0 < st.notes_to_add.length
        · rcases hh : st.notes_to_add.head? with _ | nt <;>
            rcases hp : st.id_indexes.head? with _ | pos <;>
              simp [hz, hin, hlen, hh, hp]
        · simp [hz, hin, hlen]
      · simp [hz, hin]

theorem postProcess_fallback_reassigns (d : FileData) (st : ScanState)
    (nt pos : Nat) (restNotes restPos : List Nat) (fid : Int)
    (hguard : ¬(d.saveIDToFrontmatter = true ∧
      st.notes_to_add.length + st.inline_notes_to_add.length +
        st.regex_notes_to_add.length + st.notes_to_edit.length = 1))
    (hfm : st.frontmatterID = some fid) (hnz : fid ≠ 0)
    (hknown : fid ∈ d.EXISTING_IDS)
    (hadd : st.notes_to_add = nt :: restNotes)
    (hidx : st.id_indexes = pos :: restPos) :
    postProcessFrontmatterID d st = { st with
      useFrontmatterID := false,
      notes_to_add := restNotes,
      id_indexes := restPos,
      notes_to_edit := st.notes_to_edit ++ [(nt, fid)],
      notesToWriteInline := st.notesToWriteInline ++ [(pos, fid)] } := by
  simp only [postProcessFrontmatterID]
  rw [if_neg hguard]
  simp [hfm, hnz, hknown, hadd, hidx]

theorem postProcess_fallback_noop (d : FileData) (st : ScanState)
    (hguard : ¬(d.saveIDToFrontmatter = true ∧
      st.notes_to_add.length + st.inline_notes_to_add.length +
        st.regex_notes_to_add.length + st.notes_to_edit.length = 1))
    (hfm : st.frontmatterID = none) :
    postProcessFrontmatterID d st = { st with useFrontmatterID := false } := by
  simp only [postProcessFrontmatterID]
  rw [if_neg hguard]
  simp [hfm]

/-- C6 (amended): when front-matter mode is disabled or the document holds
a total note count other than one, `useFrontmatterID` is false for the
whole document; a nonzero front-matter identifier that is known to the
remote store is reassigned as an inline identifier on the first pending
block note when `notes_to_add` is nonempty — the note moves from to-add to
to-edit under that identifier and an inline insertion is scheduled at its
position — and the write pass removes the `nid` line from the front matter
when it is the last property, clearing only its value otherwise (the last
two conjuncts show the write pass on concrete buffers). -/
theorem frontmatter_fallback_behaviour :
    (∀ (d : FileData) (st : ScanState),
      ¬(d.saveIDToFrontmatter = true ∧
        st.notes_to_add.length + st.inline_notes_to_add.length +
          st.regex_notes_to_add.length + st.notes_to_edit.length = 1) →
      (postProcessFrontmatterID d st).useFrontmatterID = false) ∧
    (∀ (d : FileData) (st : ScanState) (nt pos : Nat)
        (restNotes restPos : List Nat) (fid : Int),
      ¬(d.saveIDToFrontmatter = true ∧
        st.notes_to_add.length + st.inline_notes_to_add.length +
          st.regex_notes_to_add.length + st.notes_to_edit.length = 1) →
      st.frontmatterID = some fid → fid ≠ 0 → fid ∈ d.EXISTING_IDS →
      st.notes_to_add = nt :: restNotes → st.id_indexes = pos :: restPos →
      postProcessFrontmatterID d st = { st with
        useFrontmatterID := false,
        notes_to_add := restNotes,
        id_indexes := restPos,
        notes_to_edit := st.notes_to_edit ++ [(nt, fid)],
        notesToWriteInline := st.notesToWriteInline ++ [(pos, fid)] }) ∧
    (writeIDs ⟨[77], false, false⟩
      { file := buf "---\ntitle: x\nnid: 77\n---\nbody\n",
        frontmatterID := some 77 }).file = buf "---\ntitle: x\n---\nbody\n" ∧
    (writeIDs ⟨[77], false, false⟩
      { file := buf "---\nnid: 77\ntitle: x\n---\nbody\n",
        frontmatterID := some 77 }).file
      = buf "---\nnid:\ntitle: x\n---\nbody\n" := by
  exact ⟨postProcess_fallback_flag, postProcess_fallback_reassigns,
    by decide, by decide⟩

/-- Witness for C6's amended theorem at concrete inputs. -/
theorem frontmatter_fallback_behaviour_witness :
    (postProcessFrontmatterID ⟨[9], false, false⟩
      { file := buf "", notes_to_add := [3, 4], id_indexes := [10, 20],
        frontmatterID := some 9 }).useFrontmatterID = false ∧
    postProcessFrontmatterID ⟨[9], false, false⟩
      { file := buf "", notes_to_add := [3, 4], id_indexes := [10, 20],
        frontmatterID := some 9 }
      = { file := buf "", notes_to_add := [4], id_indexes := [20],
          notes_to_edit := [(3, 9)], notesToWriteInline := [(10, 9)],
          useFrontmatterID := false, frontmatterID := some 9 } :=
  ⟨frontmatter_fallback_behaviour.1 ⟨[9], false, false⟩
      { file := buf "", notes_to_add := [3, 4], id_indexes := [10, 20],
        frontmatterID := some 9 } (by decide),
    by
      rw [frontmatter_fallback_behaviour.2.1 ⟨[9], false, false⟩
        { file := buf "", notes_to_add := [3, 4], id_indexes := [10, 20],
          frontmatterID := some 9 } 3 10 [4] [20] 9
        (by decide) rfl (by decide) (by decide) rfl rfl]
      rfl⟩

/-- C6 fails as literally stated: with front-matter mode on, a known
front-matter identifier 77 and two new *inline* notes (so more than one
note in the document), the identifier is not reassigned to the first new
note in document order — the fallback only ever consults `notes_to_add`
(block notes), which is empty here, so nothing moves to `notes_to_edit`
and no inline insertion is scheduled. -/
theorem frontmatter_fallback_counterexample :
    (postProcessFrontmatterID ⟨[77], true, false⟩
      { file := buf "x", inline_notes_to_add := [4, 5],
        inline_id_indexes := [1, 2], frontmatterID := some 77 }).notes_to_edit
      = [] ∧
    (postProcessFrontmatterID ⟨[77], true, false⟩
      { file := buf "x", inline_notes_to_add := [4, 5],
        inline_id_indexes := [1, 2],
        frontmatterID := some 77 }).notesToWriteInline = [] ∧
    (postProcessFrontmatterID ⟨[77], true, false⟩
      { file := buf "x", inline_notes_to_add := [4, 5],
        inline_id_indexes := [1, 2],
        frontmatterID := some 77 }).inline_notes_to_add = [4, 5] := by
  decide

theorem newNotePayloads_nil {cands : List NoteCand}
    (h : ∀ c ∈ cands, c.identifier ≠ none) : newNotePayloads cands = [] := by
  rw [newNotePayloads, List.filterMap_eq_nil_iff]
  intro c hc
  rcases hid : c.identifier with _ | n
  · exact absurd hid (h c hc)
  · simp

theorem newNotePositions_nil {cands : List NoteCand}
    (h : ∀ c ∈ cands, c.identifier ≠ none) : newNotePositions cands = [] := by
  rw [newNotePositions, List.filterMap_eq_nil_iff]
  intro c hc
  rcases hid : c.identifier with _ | n
  · exact absurd hid (h c hc)
  · simp

theorem searchStep_regex_lists (d : FileData) (st : ScanState) (m : RegexCand)
    (hs : m.searchId = true) :
    (searchStep d st m).regex_notes_to_add = st.regex_notes_to_add ∧
    (searchStep d st m).regex_id_indexes = st.regex_id_indexes := by
  rcases searchStep_cases d st m with ⟨ign, esp, h⟩ | ⟨ign, esp, n, _, _, _, h⟩ |
    ⟨hs', _, _⟩
  · rw [h]; exact ⟨rfl, rfl⟩
  · rw [h]; exact ⟨rfl, rfl⟩
  · rw [hs] at hs'; cases hs'

theorem searchAll_regex_lists (d : FileData) (cands : List RegexCand) :
    (∀ m ∈ cands, m.searchId = true) → ∀ st : ScanState,
    (searchAll d st cands).regex_notes_to_add = st.regex_notes_to_add ∧
    (searchAll d st cands).regex_id_indexes = st.regex_id_indexes := by
  induction cands with
  | nil => intro _ st; exact ⟨rfl, rfl⟩
  | cons m rest ih =>
    intro hall st
    rw [searchAll_cons]
    have h1 := ih (fun m' hm' => hall m' (List.mem_cons_of_mem m hm'))
      (searchStep d st m)
    have h2 := searchStep_regex_lists d st m (hall m (List.mem_cons_self m rest))
    exact ⟨h1.1.trans h2.1, h1.2.trans h2.2⟩

theorem apply_edits_nil (t : Buf) : apply_edits t [] = t := rfl

theorem writeIDs_noop (d : FileData) (st : ScanState)
    (h1 : st.useFrontmatterID = false)
    (h2 : st.frontmatterID = none)
    (h3 : st.notesToWriteInline = [])
    (h4 : st.id_indexes = [])
    (h5 : st.inline_id_indexes = [])
    (h6 : st.regex_id_indexes = [])
    (h7 : fix_newline_ids st.file = st.file) :
    (writeIDs d st).file = st.file := by
  simp [writeIDs, h1, h2, h3, h4, h5, h6, indexWrites, apply_edits_nil, h7]

theorem scanCore_noop_fields (d : FileData) (st0 : ScanState)
    (blocks inlines : List NoteCand) (passes : List RegexCand)
    (hbne : ∀ c ∈ blocks, c.identifier ≠ none)
    (hine : ∀ c ∈ inlines, c.identifier ≠ none)
    (hpasses : ∀ m ∈ passes, m.searchId = true) :
    (scanCore d st0 blocks inlines passes).file = st0.file ∧
    (scanCore d st0 blocks inlines passes).notes_to_add = st0.notes_to_add ∧
    (scanCore d st0 blocks inlines passes).id_indexes = st0.id_indexes ∧
    (scanCore d st0 blocks inlines passes).inline_notes_to_add
      = st0.inline_notes_to_add ∧
    (scanCore d st0 blocks inlines passes).inline_id_indexes
      = st0.inline_id_indexes ∧
    (scanCore d st0 blocks inlines passes).regex_notes_to_add
      = st0.regex_notes_to_add ∧
    (scanCore d st0 blocks inlines passes).regex_id_indexes
      = st0.regex_id_indexes ∧
    (scanCore d st0 blocks inlines passes).notesToWriteInline
      = st0.notesToWriteInline ∧
    (scanCore d st0 blocks inlines passes).useFrontmatterID
      = st0.useFrontmatterID ∧
    (scanCore d st0 blocks inlines passes).frontmatterID = st0.frontmatterID ∧
    (scanCore d st0 blocks inlines passes).notes_to_delete
      = st0.notes_to_delete := by
  have hpre := searchAll_preserves d passes
    (scanInlineNotes d (scanNotes d st0 blocks) inlines)
  have hreg := searchAll_regex_lists d passes hpasses
    (scanInlineNotes d (scanNotes d st0 blocks) inlines)
  obtain ⟨p1, p2, p3, p4, p5, p6, p7, p8, p9, _⟩ := hpre
  obtain ⟨r1, r2⟩ := hreg
  rw [scanInlineNotes_spec, scanNotes_spec]
    at p1 p2 p3 p4 p5 p6 p7 p8 p9 r1 r2
  simp only [newNotePayloads_nil hbne, newNotePositions_nil hbne,
    newNotePayloads_nil hine, newNotePositions_nil hine, List.append_nil]
    at p1 p2 p3 p4 p5 p6 p7 p8 p9 r1 r2
  simp only [scanCore]
  rw [scanInlineNotes_spec, scanNotes_spec]
  simp only [newNotePayloads_nil hbne, newNotePositions_nil hbne,
    newNotePayloads_nil hine, newNotePositions_nil hine, List.append_nil]
  exact ⟨p1, p2, p3, p4, p5, r1, r2, p7, p8, p9, p6⟩

/-- C8 (amended): a full scan followed by the identifier-writing pass
returns the document byte for byte, provided front-matter mode is off,
every scanned note parses to an identifier known to the remote store (so
there are no pending adds and every edit is an in-place remote update),
there are no pending deletions, and the document contains no blank line
directly before an identifier-marker line (which the final newline
normalisation of `writeIDs` would collapse). -/
theorem idempotent_scan_write (d : FileData) (file : Buf) (fmNid : Option Int)
    (initIgnore : List Span) (blocks inlines : List NoteCand)
    (passes : List RegexCand)
    (hsave : d.saveIDToFrontmatter = false)
    (hblocks : ∀ c ∈ blocks, ∃ n, c.identifier = some n ∧ n ∈ d.EXISTING_IDS)
    (hinlines : ∀ c ∈ inlines, ∃ n, c.identifier = some n ∧ n ∈ d.EXISTING_IDS)
    (hpasses : ∀ m ∈ passes, m.searchId = true)
    (hfix : fix_newline_ids file = file) :
    (writeIDs d (scanFile d file fmNid initIgnore blocks inlines passes [])).file
      = file := by
  have hbne : ∀ c ∈ blocks, c.identifier ≠ none := by
    intro c hc hid
    obtain ⟨n, hn, _⟩ := hblocks c hc
    rw [hid] at hn
    cases hn
  have hine : ∀ c ∈ inlines, c.identifier ≠ none := by
    intro c hc hid
    obtain ⟨n, hn, _⟩ := hinlines c hc
    rw [hid] at hn
    cases hn
  obtain ⟨cfile, cadd, cidx, cinl, cinlidx, cregadd, cregidx, cwr, cflag,
    cfm, cdel⟩ := scanCore_noop_fields d
      { file := file, ignore_spans := initIgnore,
        frontmatterID := if d.saveIDToFrontmatter then fmNid else none }
      blocks inlines passes hbne hine hpasses
  have hscan : scanFile d file fmNid initIgnore blocks inlines passes []
      = postProcessFrontmatterID d
          (scanCore d
            { file := file, ignore_spans := initIgnore,
              frontmatterID := if d.saveIDToFrontmatter then fmNid else none }
            blocks inlines passes) := by
    simp only [scanFile, List.append_nil]
  have hguard : ¬(d.saveIDToFrontmatter = true ∧
      (scanCore d
        { file := file, ignore_spans := initIgnore,
          frontmatterID := if d.saveIDToFrontmatter then fmNid else none }
        blocks inlines passes).notes_to_add.length +
      (scanCore d
        { file := file, ignore_spans := initIgnore,
          frontmatterID := if d.saveIDToFrontmatter then fmNid else none }
        blocks inlines passes).inline_notes_to_add.length +
      (scanCore d
        { file := file, ignore_spans := initIgnore,
          frontmatterID := if d.saveIDToFrontmatter then fmNid else none }
        blocks inlines passes).regex_notes_to_add.length +
      (scanCore d
        { file := file, ignore_spans := initIgnore,
          frontmatterID := if d.saveIDToFrontmatter then fmNid else none }
        blocks inlines passes).notes_to_edit.length = 1) := by
    intro hcon
    rw [hsave] at hcon
    exact absurd hcon.1 (by simp)
  have hfmF : (scanCore d
      { file := file, ignore_spans := initIgnore,
        frontmatterID := if d.saveIDToFrontmatter then fmNid else none }
      blocks inlines passes).frontmatterID = none := by
    rw [cfm]
    simp [hsave]
  have hpp := postProcess_fallback_noop d
    (scanCore d
      { file := file, ignore_spans := initIgnore,
        frontmatterID := if d.saveIDToFrontmatter then fmNid else none }
      blocks inlines passes) hguard hfmF
  have hW := writeIDs_noop d
    { scanCore d
        { file := file, ignore_spans := initIgnore,
          frontmatterID := if d.saveIDToFrontmatter then fmNid else none }
        blocks inlines passes with useFrontmatterID := false }
    rfl (by simp [hfmF]) (by simp [cwr]) (by simp [cidx]) (by simp [cinlidx])
    (by simp [cregidx]) (by simp [cfile, hfix])
  rw [hscan, hpp, hW]
  simp [cfile]

/-- Witness for C8's amended theorem at a concrete input: one block note
with the known inline identifier 12 leaves the document unchanged. -/
theorem idempotent_scan_write_witness :
    (writeIDs ⟨[12], false, false⟩
      (scanFile ⟨[12], false, false⟩ (buf "Q\nID: 12\n") none []
        [⟨1, some 12, 9, some (1, 8)⟩] [] [] [])).file = buf "Q\nID: 12\n" :=
  idempotent_scan_write ⟨[12], false, false⟩ (buf "Q\nID: 12\n") none []
    [⟨1, some 12, 9, some (1, 8)⟩] [] [] rfl
    (by
      intro c hc
      rw [List.mem_singleton] at hc
      subst hc
      exact ⟨12, rfl, by decide⟩)
    (by intro c hc; cases hc)
    (by intro m hm; cases hm)
    (by decide)

/-- C8 fails as literally stated, in two independent ways: with front-matter
mode off, a document whose text holds a blank line directly before a stray
identifier-marker line is rewritten by the final newline normalisation even
though the scan produced no adds, edits or deletions; and with front-matter
mode on, a document holding a single note with a correct known inline
identifier is still rewritten — the inline marker is deleted and a
front-matter block carrying the identifier is created. -/
theorem idempotent_scan_write_counterexample :
    (writeIDs ⟨[], false, false⟩
      (scanFile ⟨[], false, false⟩ (buf "x\n\nID: 3\n") none [] [] [] [] [])).file
      = buf "x\nID: 3\n" ∧
    buf "x\nID: 3\n" ≠ buf "x\n\nID: 3\n" ∧
    (writeIDs ⟨[12], true, false⟩
      (scanFile ⟨[12], true, false⟩ (buf "Q\nID: 12\n") none []
        [⟨1, some 12, 9, some (1, 8)⟩] [] [] [])).file
      = buf "---\nnid: 12\n---\nQ\n" ∧
    buf "---\nnid: 12\n---\nQ\n" ≠ buf "Q\nID: 12\n" := by
  decide

/-- C9: a required-tags configuration that splits to no non-empty tag
(empty, whitespace-only, or only commas and blanks) makes `hasRequiredTag`
return true for every document, and consequently a custom regex note type
with a nonempty pattern and such a configuration is searched on every
document even when required-tags gating is enabled. -/
theorem empty_required_tags_always_searched (tags_str : Buf)
    (fmTags : Option (List Buf ⊕ Buf)) (inlineTags : Option (List Buf))
    (hempty : splitRequiredTags tags_str = []) :
    hasRequiredTag tags_str fmTags inlineTags = true ∧
    ∀ (noteTypes : List Buf) (regexps tags : Buf → Buf) (nt : Buf),
      nt ∈ noteTypes → (regexps nt).isEmpty = false → tags nt = tags_str →
      nt ∈ scannedNoteTypes noteTypes regexps tags true fmTags inlineTags := by
  have hRT : hasRequiredTag tags_str fmTags inlineTags = true := by
    by_cases h0 : tags_str.isEmpty || (jsTrim tags_str).isEmpty
    · simp [hasRequiredTag, h0]
    · simp [hasRequiredTag, h0, hempty]
  refine ⟨hRT, ?_⟩
  intro noteTypes regexps tags nt hmem hre htag
  unfold scannedNoteTypes
  simp only [if_true]
  apply List.mem_filter.mpr
  refine ⟨((List.perm_insertionSort (tagSortLE tags) noteTypes).mem_iff).mpr hmem, ?_⟩
  simp [hre, htag, hRT]

/-- Witness for C9's theorem at a concrete input: the configuration
`" , "` splits to nothing, so the type with pattern `x` is searched under
gating. -/
theorem empty_required_tags_always_searched_witness :
    hasRequiredTag (buf " , ") none none = true ∧
    buf "T" ∈ scannedNoteTypes [buf "T"] (fun _ => buf "x")
      (fun _ => buf " , ") true none none :=
  ⟨(empty_required_tags_always_searched (buf " , ") none none (by decide)).1,
    (empty_required_tags_always_searched (buf " , ") none none (by decide)).2
      [buf "T"] (fun _ => buf "x") (fun _ => buf " , ") (buf "T")
      (by decide) (by decide) rfl⟩

theorem scanIdMarkersGo_nil (fuel : Nat) :
    ∀ s : Buf, (∀ i, matchIdMarker (s.drop i) = none) →
      scanIdMarkersGo fuel s = [] := by
  induction fuel with
  | zero => intro s _; rfl
  | succ fuel ih =>
    intro s h
    cases s with
    | nil => rfl
    | cons c rest =>
      have h0 := h 0
      rw [List.drop_zero] at h0
      rw [scanIdMarkersGo, h0]
      exact ih rest fun i => by
        have := h (i + 1)
        rwa [List.drop_succ_cons] at this

/-- C10: when the file content has no inline identifier-marker match at any
position and the front matter (when one exists) yields no `nid` capture,
the pure core of `checkAndBulkDelete` returns `none` — the early
`No IDs found` exit, so no deletion request is issued and the file is not
modified; otherwise the submitted identifier list is exactly the integers
of the inline identifier markers in order, followed by the front-matter
`nid` value when one is present, and it is never empty. -/
theorem bulk_delete_ids_exact (content : Buf) :
    ((∀ i, matchIdMarker (content.drop i) = none) →
      (∀ fml, matchFrontmatter content = some fml → fmNidCapture fml.1 = none) →
      bulkDeleteIds content = none) ∧
    (∀ ids, bulkDeleteIds content = some ids →
      ids = scanIdMarkers content ++
        (match matchFrontmatter content with
          | some fml => (fmNidCapture fml.1).toList
          | none => []) ∧
      ids ≠ []) := by
  constructor
  · intro hall hfm
    have hid : scanIdMarkers content = [] :=
      scanIdMarkersGo_nil content.length content hall
    unfold bulkDeleteIds
    rcases hm : matchFrontmatter content with _ | fml
    · simp [hid]
    · have hcap := hfm fml hm
      simp [hid, hcap]
  · intro ids hids
    unfold bulkDeleteIds at hids
    rcases hm : matchFrontmatter content with _ | fml <;> rw [hm] at hids <;>
      dsimp only at hids
    · by_cases he : (scanIdMarkers content).isEmpty
      · rw [if_pos he] at hids
        cases hids
      · rw [if_neg he] at hids
        obtain rfl := (Option.some.inj hids).symm
        refine ⟨by simp [hm], ?_⟩
        intro hnil
        rw [hnil] at he
        exact he rfl
    · rcases hcap : fmNidCapture fml.1 with _ | v <;> rw [hcap] at hids <;>
        dsimp only at hids
      · by_cases he : (scanIdMarkers content).isEmpty
        · rw [if_pos he] at hids
          cases hids
        · rw [if_neg he] at hids
          obtain rfl := (Option.some.inj hids).symm
          refine ⟨by simp [hm, hcap], ?_⟩
          intro hnil
          rw [hnil] at he
          exact he rfl
      · by_cases he : (scanIdMarkers content ++ [v]).isEmpty
        · rw [if_pos he] at hids
          cases hids
        · rw [if_neg he] at hids
          obtain rfl := (Option.some.inj hids).symm
          refine ⟨by simp [hm, hcap], ?_⟩
          intro hnil
          rw [hnil] at he
          exact he rfl

/-- Witness for C10's theorem at a concrete input: a document with one
inline marker `ID: 5` and a front-matter `nid: 9`. -/
theorem bulk_delete_ids_exact_witness :
    [5, 9] = scanIdMarkers (buf "---\nnid: 9\n---\na\nID: 5\n") ++
      (match matchFrontmatter (buf "---\nnid: 9\n---\na\nID: 5\n") with
        | some fml => (fmNidCapture fml.1).toList
        | none => []) ∧
    ([5, 9] : List Nat) ≠ [] :=
  (bulk_delete_ids_exact (buf "---\nnid: 9\n---\na\nID: 5\n")).2 [5, 9]
    (by decide)
